import Mathlib
/-!
Verification of the blighted_island game-history core: a shallow embedding of
the data model (`Player`, `Spirit`, `Adversary`, `PlayerSpirit`, `Game`), the
filter engine (`GameFilters.filter_games`), the statistics aggregators
(`get_adversary_stats`, `get_player_stats`), the weighted adversary
randomizer (`weighted_random_adversary`), and the history repository
(`record_game`, `list_games`, `import_games`).

Conventions of the embedding:
* Python `datetime.date` values are `PyDate` records compared
  lexicographically on (year, month, day), exactly as Python tuples compare.
* Python `float` arithmetic in weights and win percentages is modelled over
  `ℚ`; `round(x, 1)` is modelled by half-even rounding of `x * 10`.
* The object store is an association list from paths to file contents;
  `fsspec` faults and the `get_fs() is None` case are explicit constructors.
* `random.choices` / `random.choice` are modelled by returning the
  distribution the library call draws from (candidates plus weights).
* The stdlib `json.loads` boundary is modelled by `Option Json`: `none` is a
  `JSONDecodeError`, `some j` the parsed document.  Pydantic validation of
  the `Game` model is embedded as `gameFromJson` (strict types; the lax
  string/number coercions of pydantic are not modelled, no claim depends on
  them).
-/

/-- Python `datetime.date`: year, month, day.  Comparison of Python dates is
lexicographic on the (year, month, day) tuple. -/
structure PyDate where
  year : Nat
  month : Nat
  day : Nat
deriving DecidableEq
/-- Python date comparison `a <= b`, lexicographic on (year, month, day). -/
def PyDate.leB (a b : PyDate) : Bool :=
  decide (a.year < b.year) ||
    (decide (a.year = b.year) &&
      (decide (a.month < b.month) ||
        (decide (a.month = b.month) && decide (a.day ≤ b.day))))
/-- players.py `Player`: frozen pydantic model with a single `name` field. -/
structure Player where
  name : String
deriving DecidableEq
/-- spirits.py `Complexity`: the `Literal` of the four complexity ratings. -/
inductive Complexity where
  | veryHigh
  | high
  | moderate
  | low
deriving DecidableEq
/-- spirits.py `Spirit`: name, complexity, optional aspect. -/
structure Spirit where
  name : String
  complexity : Complexity
  aspect : Option String := none
deriving DecidableEq
/-- adversary.py `Adversary`: frozen pydantic model with name and level. -/
structure Adversary where
  name : String
  level : Int
deriving DecidableEq
/-- game_history.py `PlayerSpirit`: one seat's player/spirit assignment. -/
structure PlayerSpirit where
  player : Player
  spirit : Spirit
deriving DecidableEq
/-- game_history.py `Game`: a complete game record.  `won = none` together
with `desync` encodes the desync / pending outcomes. -/
structure Game where
  date_played : PyDate
  adversary : Adversary
  players_played : List PlayerSpirit
  won : Option Bool
  desync : Option Bool := none
  notes : Option String := none
deriving DecidableEq
/-- adversary.py `ADVERSARY_NAMES`: the static sorted roster (the Python
source applies `sorted` to the literal; this is the resulting order). -/
def ADVERSARY_NAMES : List String :=
  ["Brandenburg-Prussia",
   "England",
   "France (Plantation Colony)",
   "Habsburg Monarchy (Livestock Colony)",
   "Russia",
   "Sweden"]
/-- game_history.py `GameFilters`: criteria for narrowing the history. -/
structure GameFilters where
  min_players : Int
  max_players : Int
  player : Option Player := none
  adversary : Option String := none
  date_from : Option PyDate := none
  date_to : Option PyDate := none
/-- Python truthiness of an optional string: `None` and the empty string are
falsy, any other string is truthy (and is the value the branch then uses). -/
def pyTruthyStr : Option String → Option String
  | some s => if s = "" then none else some s
  | none => none
/-- game_history.py `GameFilters.filter_games`: the sequential filter chain.
Note the Python guards: `if self.player:` is true for every `Player`
instance, `if self.date_from:` for every date, but `if self.adversary:` is
false for the empty string, so an empty-string adversary criterion is
skipped (`pyTruthyStr`). -/
def GameFilters.filter_games (f : GameFilters) (games : List Game) : List Game :=
  let f1 := games.filter (fun g => decide (f.min_players ≤ (g.players_played.length : Int)))
  let f2 := f1.filter (fun g => decide ((g.players_played.length : Int) ≤ f.max_players))
  let f3 :=
    match f.player with
    | some p => f2.filter (fun g => decide (p ∈ g.players_played.map (fun ps => ps.player)))
    | none => f2
  let f4 :=
    match pyTruthyStr f.adversary with
    | some a => f3.filter (fun g => decide (g.adversary.name = a))
    | none => f3
  let f5 :=
    match f.date_from with
    | some d => f4.filter (fun g => d.leB g.date_played)
    | none => f4
  let f6 :=
    match f.date_to with
    | some d => f5.filter (fun g => g.date_played.leB d)
    | none => f5
  f6
/-- The spec's membership predicate as the specification sentence states it:
the conjunction of all provided constraints, where any provided adversary
string demands an exact name match. -/
def matchesClaimed (f : GameFilters) (g : Game) : Bool :=
  decide (f.min_players ≤ (g.players_played.length : Int)) &&
  decide ((g.players_played.length : Int) ≤ f.max_players) &&
  (match f.player with
   | some p => decide (p ∈ g.players_played.map (fun ps => ps.player))
   | none => true) &&
  (match f.adversary with
   | some a => decide (g.adversary.name = a)
   | none => true) &&
  (match f.date_from with
   | some d => d.leB g.date_played
   | none => true) &&
  (match f.date_to with
   | some d => g.date_played.leB d
   | none => true)
/-- The membership predicate the code actually implements: identical to
`matchesClaimed` except that a provided adversary criterion equal to the
empty string imposes no constraint.  The conjuncts appear in the order the
sequential filter chain composes them (`&&` is commutative, so this is the
same conjunction). -/
def matchesAmended (f : GameFilters) (g : Game) : Bool :=
  (match f.date_to with
   | some d => g.date_played.leB d
   | none => true) &&
  ((match f.date_from with
    | some d => d.leB g.date_played
    | none => true) &&
   ((match pyTruthyStr f.adversary with
     | some a => decide (g.adversary.name = a)
     | none => true) &&
    ((match f.player with
      | some p => decide (p ∈ g.players_played.map (fun ps => ps.player))
      | none => true) &&
     (decide ((g.players_played.length : Int) ≤ f.max_players) &&
      decide (f.min_players ≤ (g.players_played.length : Int))))))
/-! ## Statistics aggregators (adversary.py `get_adversary_stats`,
players.py `get_player_stats`) -/

/-- Python `round` (banker's rounding): round a rational to the nearest
integer, ties to the even integer. -/
def pyRoundHalfEven (q : ℚ) : ℤ :=
  let fl := ⌊q⌋
  if q - fl < 1/2 then fl
  else if (1 : ℚ)/2 < q - fl then fl + 1
  else if fl % 2 = 0 then fl else fl + 1
/-- Python `round(x, 1)`: half-even rounding at one decimal place. -/
def pyRound1 (q : ℚ) : ℚ := (pyRoundHalfEven (q * 10) : ℚ) / 10
/-- The mutable per-group dict value `{"wins": .., "losses": .., "total": ..}`
built by the aggregation loops. -/
structure RawStats where
  wins : Nat
  losses : Nat
  total : Nat
deriving DecidableEq
/-- One iteration's mutation of a group's counters: `total += 1`, then
`wins += 1` if the game was won, `losses += 1` if it was lost, and neither
for a desync / unset outcome (`won = none`). -/
def bumpStats (r : RawStats) (won : Option Bool) : RawStats :=
  let r1 : RawStats := { r with total := r.total + 1 }
  match won with
  | some true => { r1 with wins := r1.wins + 1 }
  | some false => { r1 with losses := r1.losses + 1 }
  | none => r1
/-- Python dict lookup on the insertion-ordered association list. -/
def dictGet (key : String) : List (String × RawStats) → Option RawStats
  | [] => none
  | kv :: rest => if kv.1 = key then some kv.2 else dictGet key rest
/-- Python dict item mutation `stats[key] = f(stats[key])`. -/
def dictUpdate (f : RawStats → RawStats) (key : String) :
    List (String × RawStats) → List (String × RawStats)
  | [] => []
  | kv :: rest =>
    if kv.1 = key then (kv.1, f kv.2) :: rest else kv :: dictUpdate f key rest
/-- The aggregation loop body for one (group key, outcome) occurrence:
insert the zero entry if the key is new, then bump its counters. -/
def statsStep (st : List (String × RawStats)) (key : String) (won : Option Bool) :
    List (String × RawStats) :=
  let st1 := if (dictGet key st).isSome then st else st ++ [(key, ⟨0, 0, 0⟩)]
  dictUpdate (fun r => bumpStats r won) key st1
/-- A per-group statistics record after the win-percentage pass. -/
structure StatsOut where
  wins : Nat
  losses : Nat
  total : Nat
  win_pct : ℚ
deriving DecidableEq
/-- The win-percentage pass:
`round(wins / total * 100 if total > 0 else 0, 1)`. -/
def addPct (r : RawStats) : StatsOut :=
  ⟨r.wins, r.losses, r.total,
   pyRound1 (if 0 < r.total then (r.wins : ℚ) / (r.total : ℚ) * 100 else 0)⟩
/-- adversary.py: the group label `f"{name} (Lvl {level})"`. -/
def advKey (a : Adversary) : String :=
  a.name ++ " (Lvl " ++ toString a.level ++ ")"
/-- adversary.py `get_adversary_stats`: one loop iteration per game, keyed
by adversary name and level, followed by the win-percentage pass. -/
def get_adversary_stats (games : List Game) : List (String × StatsOut) :=
  let stats := games.foldl (fun st g => statsStep st (advKey g.adversary) g.won) []
  stats.map (fun kv => (kv.1, addPct kv.2))
/-- players.py `get_player_stats`: one inner loop iteration per seat of each
game, keyed by the seat's player name, followed by the win-percentage
pass. -/
def get_player_stats (games : List Game) : List (String × StatsOut) :=
  let stats := games.foldl
    (fun st g => g.players_played.foldl
      (fun st2 ps => statsStep st2 ps.player.name g.won) st)
    []
  stats.map (fun kv => (kv.1, addPct kv.2))
/-- The stream of (group key, outcome) occurrences the adversary loop
processes: one per game. -/
def advEvents (games : List Game) : List (String × Option Bool) :=
  games.map (fun g => (advKey g.adversary, g.won))
/-- The stream of (group key, outcome) occurrences the player loop
processes: one per seat of each game. -/
def playerEvents (games : List Game) : List (String × Option Bool) :=
  games.flatMap (fun g => g.players_played.map (fun ps => (ps.player.name, g.won)))
/-- Folding `statsStep` over a stream of occurrences. -/
def statsFoldFrom (events : List (String × Option Bool))
    (st : List (String × RawStats)) : List (String × RawStats) :=
  events.foldl (fun st2 ev => statsStep st2 ev.1 ev.2) st
/-- The counters a single group accumulates from a stream of occurrences. -/
def specRaw (key : String) (events : List (String × Option Bool)) (r : RawStats) :
    RawStats :=
  events.foldl (fun r2 ev => if ev.1 = key then bumpStats r2 ev.2 else r2) r
/-! ## Weighted adversary randomizer (adversary.py `weighted_random_adversary`) -/

/-- The `Counter` occurrence count of `a` in the history extract. -/
def countName (l : List String) (a : String) : Nat :=
  l.countP (fun x => decide (x = a))
/-- Python `counter.get(a, d)`: the count if `a` occurred, else the default
(the source passes default 1). -/
def counterGetD (l : List String) (a : String) (d : Nat) : Nat :=
  if countName l a = 0 then d else countName l a
/-- The count `counter.most_common(1)[0][1]`: the largest occurrence count
in the extract (the source only evaluates it on a nonempty extract). -/
def maxCount (l : List String) : Nat :=
  (l.map (countName l)).foldl max 0
/-- adversary.py line 91: the names of adversaries played at the requested
level, in history order. -/
def adversary_at_level (level : Int) (games : List Game) : List String :=
  (games.filter (fun g => decide (g.adversary.level = level))).map
    (fun g => g.adversary.name)
/-- adversary.py line 108 and 111: the floored selection weight of one
candidate name, `max(max_count / counter.get(a, 1) - 1, 0.1)`, over ℚ. -/
def adversaryWeight (aal : List String) (a : String) : ℚ :=
  max ((maxCount aal : ℚ) / (counterGetD aal a 1 : ℚ) - 1) (1/10)
/-- The distribution a randomized pick draws from: either a uniform choice
over candidate names (`random.choice`) or a weighted choice
(`random.choices(names, weights)`), each tagged with the level the
returned `Adversary` will carry. -/
inductive AdvDraw where
  | uniform (names : List String) (level : Int)
  | weighted (names : List String) (ws : List ℚ) (level : Int)
deriving DecidableEq
/-- adversary.py `random_adversary`: a uniform draw over the roster. -/
def random_adversary (level : Int) : AdvDraw :=
  AdvDraw.uniform ADVERSARY_NAMES level
/-- adversary.py `weighted_random_adversary`: extract the names played at
the level; if none, fall back to `random_adversary`; otherwise draw from
the roster weighted by `adversaryWeight`. -/
def weighted_random_adversary (level : Int) (games : List Game) : AdvDraw :=
  let aal := adversary_at_level level games
  if aal.isEmpty then random_adversary level
  else AdvDraw.weighted ADVERSARY_NAMES
    (ADVERSARY_NAMES.map (adversaryWeight aal)) level
/-- The probability `random.choices(names, weights)` assigns to drawing the
value `a`: the weight mass attached to occurrences of `a`, over the total
mass. -/
def drawProb (names : List String) (ws : List ℚ) (a : String) : ℚ :=
  (((names.zip ws).filter (fun p => decide (p.1 = a))).map Prod.snd).sum / ws.sum
/-! ## Canonical JSON serialization (pydantic `model_dump_json`) and the
hash-addressed store (game_history.py `record_game`) -/

/-- One hexadecimal digit. -/
def hexChar (n : Nat) : String :=
  (["0", "1", "2", "3", "4", "5", "6", "7", "8", "9",
    "a", "b", "c", "d", "e", "f"].getD n ("0"))
/-- JSON string escaping of a single character (quote, backslash, control
characters; everything else passes through). -/
def jsonEscapeChar (c : Char) : String :=
  if c = '"' then "\\\""
  else if c = '\\' then "\\\\"
  else if c = '\n' then "\\n"
  else if c = '\t' then "\\t"
  else if c = '\r' then "\\r"
  else if c.toNat = 8 then "\\b"
  else if c.toNat = 12 then "\\f"
  else if c.toNat < 32 then "\\u00" ++ hexChar (c.toNat / 16) ++ hexChar (c.toNat % 16)
  else String.singleton c
/-- A JSON string literal. -/
def jstr (s : String) : String :=
  "\"" ++ String.join (s.data.map jsonEscapeChar) ++ "\""
/-- Zero-padded two-digit decimal. -/
def pad2 (n : Nat) : String := if n < 10 then "0" ++ toString n else toString n
/-- Zero-padded four-digit decimal (Python `date.isoformat` year field). -/
def pad4 (n : Nat) : String :=
  if n < 10 then "000" ++ toString n
  else if n < 100 then "00" ++ toString n
  else if n < 1000 then "0" ++ toString n
  else toString n
/-- Python `date.isoformat()`: `YYYY-MM-DD`. -/
def PyDate.iso (d : PyDate) : String :=
  pad4 d.year ++ "-" ++ pad2 d.month ++ "-" ++ pad2 d.day
/-- The serialized complexity literal. -/
def Complexity.label : Complexity → String
  | .veryHigh => "Very High"
  | .high => "High"
  | .moderate => "Moderate"
  | .low => "Low"
/-- JSON for an optional string field (pydantic emits `null` for `None`). -/
def optStrJson : Option String → String
  | none => "null"
  | some s => jstr s
/-- JSON for an optional boolean field. -/
def optBoolJson : Option Bool → String
  | none => "null"
  | some true => "true"
  | some false => "false"
/-- Compact JSON for a `Player`, field order as declared. -/
def Player.json (p : Player) : String :=
  "\x7b\"name\":" ++ jstr p.name ++ "\x7d"
/-- Compact JSON for a `Spirit`, field order as declared. -/
def Spirit.json (s : Spirit) : String :=
  "\x7b\"name\":" ++ jstr s.name ++
    ",\"complexity\":" ++ jstr s.complexity.label ++
    ",\"aspect\":" ++ optStrJson s.aspect ++ "\x7d"
/-- Compact JSON for an `Adversary`, field order as declared. -/
def Adversary.json (a : Adversary) : String :=
  "\x7b\"name\":" ++ jstr a.name ++ ",\"level\":" ++ toString a.level ++ "\x7d"
/-- Compact JSON for a `PlayerSpirit`, field order as declared. -/
def PlayerSpirit.json (ps : PlayerSpirit) : String :=
  "\x7b\"player\":" ++ ps.player.json ++ ",\"spirit\":" ++ ps.spirit.json ++ "\x7d"
/-- pydantic `Game.model_dump_json()`: compact JSON, declaration field
order, ISO date, `null` for unset optionals. -/
def model_dump_json (g : Game) : String :=
  "\x7b\"date_played\":" ++ jstr g.date_played.iso ++
    ",\"adversary\":" ++ g.adversary.json ++
    ",\"players_played\":[" ++
      String.intercalate (",") (g.players_played.map PlayerSpirit.json) ++ "]" ++
    ",\"won\":" ++ optBoolJson g.won ++
    ",\"desync\":" ++ optBoolJson g.desync ++
    ",\"notes\":" ++ optStrJson g.notes ++ "\x7d"
/-- UTF-8 encoding of one character (Python `str.encode()`). -/
def utf8Char (c : Char) : List Nat :=
  let n := c.toNat
  if n < 128 then [n]
  else if n < 2048 then [192 + n / 64, 128 + n % 64]
  else if n < 65536 then [224 + n / 4096, 128 + n / 64 % 64, 128 + n % 64]
  else [240 + n / 262144, 128 + n / 4096 % 64, 128 + n / 64 % 64, 128 + n % 64]
/-- UTF-8 byte stream of a string. -/
def utf8Bytes (s : String) : List Nat := s.data.flatMap utf8Char
/-- 2^32, the word modulus of SHA-256. -/
def M32 : Nat := 4294967296
/-- Addition modulo 2^32. -/
def add32 (a b : Nat) : Nat := (a + b) % M32
/-- 32-bit right rotation. -/
def rotr32 (n x : Nat) : Nat := (x / 2 ^ n + x % 2 ^ n * 2 ^ (32 - n)) % M32
/-- 32-bit right shift. -/
def shr32 (n x : Nat) : Nat := x / 2 ^ n
/-- 32-bit bitwise complement. -/
def not32 (x : Nat) : Nat := x ^^^ (M32 - 1)
/-- SHA-256 Σ0. -/
def bigS0 (x : Nat) : Nat := rotr32 2 x ^^^ rotr32 13 x ^^^ rotr32 22 x
/-- SHA-256 Σ1. -/
def bigS1 (x : Nat) : Nat := rotr32 6 x ^^^ rotr32 11 x ^^^ rotr32 25 x
/-- SHA-256 σ0. -/
def smallS0 (x : Nat) : Nat := rotr32 7 x ^^^ rotr32 18 x ^^^ shr32 3 x
/-- SHA-256 σ1. -/
def smallS1 (x : Nat) : Nat := rotr32 17 x ^^^ rotr32 19 x ^^^ shr32 10 x
/-- SHA-256 choice function. -/
def chF (e f g : Nat) : Nat := (e &&& f) ^^^ (not32 e &&& g)
/-- SHA-256 majority function. -/
def majF (a b c : Nat) : Nat := (a &&& b) ^^^ (a &&& c) ^^^ (b &&& c)
/-- The 64 SHA-256 round constants. -/
def shaK : List Nat :=
  [1116352408, 1899447441, 3049323471,
   3921009573, 961987163, 1508970993,
   2453635748, 2870763221, 3624381080,
   310598401, 607225278, 1426881987,
   1925078388, 2162078206, 2614888103,
   3248222580, 3835390401, 4022224774,
   264347078, 604807628, 770255983,
   1249150122, 1555081692, 1996064986,
   2554220882, 2821834349, 2952996808,
   3210313671, 3336571891, 3584528711,
   113926993, 338241895, 666307205,
   773529912, 1294757372, 1396182291,
   1695183700, 1986661051, 2177026350,
   2456956037, 2730485921, 2820302411,
   3259730800, 3345764771, 3516065817,
   3600352804, 4094571909, 275423344,
   430227734, 506948616, 659060556,
   883997877, 958139571, 1322822218,
   1537002063, 1747873779, 1955562222,
   2024104815, 2227730452, 2361852424,
   2428436474, 2756734187, 3204031479,
   3329325298]
/-- The SHA-256 initial hash state. -/
def shaH0 : List Nat :=
  [1779033703, 3144134277, 1013904242,
   2773480762, 1359893119, 2600822924,
   528734635, 1541459225]
/-- Big-endian 8-byte encoding of the bit length. -/
def be8 (n : Nat) : List Nat :=
  (List.range 8).map (fun i => n / 2 ^ (8 * (7 - i)) % 256)
/-- SHA-256 message padding: `0x80`, zeros to 56 mod 64, then the 64-bit
big-endian bit length. -/
def padBytes (msg : List Nat) : List Nat :=
  msg ++ [128] ++ List.replicate ((119 - msg.length % 64) % 64) 0 ++
    be8 (msg.length * 8)
/-- The i-th big-endian 32-bit word of a 64-byte block. -/
def wordAt (block : List Nat) (i : Nat) : Nat :=
  block.getD (4 * i) 0 * 16777216 + block.getD (4 * i + 1) 0 * 65536 +
    block.getD (4 * i + 2) 0 * 256 + block.getD (4 * i + 3) 0
/-- The 64-word SHA-256 message schedule of one block. -/
def msgSchedule (block : List Nat) : List Nat :=
  (List.range 48).foldl
    (fun ws i =>
      let t := i + 16
      ws ++ [add32 (add32 (smallS1 (ws.getD (t - 2) 0)) (ws.getD (t - 7) 0))
               (add32 (smallS0 (ws.getD (t - 15) 0)) (ws.getD (t - 16) 0))])
    ((List.range 16).map (wordAt block))
/-- One SHA-256 compression round on the eight-word working state. -/
def compressStep (st : List Nat) (kw : Nat × Nat) : List Nat :=
  match st with
  | [a, b, c, d, e, f, g, h] =>
    let t1 := add32 (add32 h (bigS1 e)) (add32 (chF e f g) (add32 kw.1 kw.2))
    let t2 := add32 (bigS0 a) (majF a b c)
    [add32 t1 t2, a, b, c, add32 d t1, e, f, g]
  | _ => st
/-- Process one 64-byte block into the running hash state. -/
def processBlock (hs : List Nat) (block : List Nat) : List Nat :=
  let w := msgSchedule block
  let st := (shaK.zip w).foldl compressStep hs
  (hs.zip st).map (fun p => add32 p.1 p.2)
/-- Split a byte list into 64-byte blocks (fuel-driven). -/
def chunks64 : Nat → List Nat → List (List Nat)
  | 0, _ => []
  | fuel + 1, l => if l.isEmpty then [] else l.take 64 :: chunks64 fuel (l.drop 64)
/-- Eight hex digits of one 32-bit word. -/
def hexWord (w : Nat) : String :=
  String.join ((List.range 8).map (fun i => hexChar (w / 16 ^ (7 - i) % 16)))
/-- `hashlib.sha256(s.encode()).hexdigest()`. -/
def sha256hex (s : String) : String :=
  let msg := padBytes (utf8Bytes s)
  let hs := (chunks64 msg.length msg).foldl processBlock shaH0
  String.join (hs.map hexWord)
/-- config.py `STORAGE_ROOT` (default value). -/
def STORAGE_ROOT : String := "s3://blightedisland/recorded_games/"
/-- The object store: an insertion-ordered map from blob path to blob
contents. -/
abbrev Store := List (String × String)
/-- `fs.write_text(path, content)`: overwrite the blob at `path` if it
exists, else create it. -/
def storeWrite (path content : String) : Store → Store
  | [] => [(path, content)]
  | pc :: rest =>
    if pc.1 = path then (pc.1, content) :: rest
    else pc :: storeWrite path content rest
/-- The blob path `record_game` writes a game to: storage root, SHA-256 hex
digest of the canonical JSON, `.json` suffix. -/
def gamePath (g : Game) : String :=
  STORAGE_ROOT ++ sha256hex (model_dump_json g) ++ ".json"
/-- game_history.py `record_game`: serialize, hash, write at the
hash-derived path; fails (without writing) only when no filesystem is
available. -/
def record_game (fs : Option Store) (g : Game) : Option Store × Bool :=
  match fs with
  | none => (none, false)
  | some s =>
    let game_json := model_dump_json g
    let hashstr := sha256hex game_json
    let filepath := STORAGE_ROOT ++ hashstr ++ ".json"
    (some (storeWrite filepath game_json s), true)
/-! ## JSON documents, pydantic validation (`Game.model_validate`), the
repository loader (`list_games`) and bulk import (`import_games`) -/

/-- The universe of parsed JSON documents `json.loads` can produce:
`None`, booleans, numbers, strings, lists and (insertion-ordered)
dictionaries. -/
inductive Json where
  | null
  | bool (b : Bool)
  | num (q : ℚ)
  | str (s : String)
  | arr (elems : List Json)
  | obj (fields : List (String × Json))
/-- Dictionary field lookup. -/
def Json.get (j : Json) (key : String) : Option Json :=
  match j with
  | .obj fields => fields.lookup key
  | _ => none
/-- Validate a string field. -/
def decodeStr : Json → Option String
  | .str s => some s
  | _ => none
/-- Validate an integer field (a JSON number with no fractional part). -/
def decodeInt : Json → Option Int
  | .num q => if q.den = 1 then some q.num else none
  | _ => none
/-- Validate an `Optional[bool]` field value: `null` or a boolean. -/
def decodeOptBool : Json → Option (Option Bool)
  | .null => some none
  | .bool b => some (some b)
  | _ => none
/-- Validate an `Optional[str]` field value: `null` or a string. -/
def decodeOptStr : Json → Option (Option String)
  | .null => some none
  | .str s => some (some s)
  | _ => none
/-- Gregorian leap year. -/
def isLeap (y : Nat) : Bool :=
  (decide (y % 4 = 0) && decide (y % 100 ≠ 0)) || decide (y % 400 = 0)
/-- Days in a month of the proleptic Gregorian calendar. -/
def daysInMonth (y m : Nat) : Nat :=
  if m = 2 then (if isLeap y then 29 else 28)
  else if m = 4 ∨ m = 6 ∨ m = 9 ∨ m = 11 then 30
  else 31
/-- Decimal value of a list of digit characters. -/
def digitListToNat (cs : List Char) : Nat :=
  cs.foldl (fun n c => n * 10 + (c.toNat - 48)) 0
/-- Parse a strict ISO `YYYY-MM-DD` date string into a valid calendar
date, as pydantic's `date` validation accepts. -/
def parseIsoDate (s : String) : Option PyDate :=
  match s.data with
  | [y1, y2, y3, y4, h1, m1, m2, h2, d1, d2] =>
    if h1 = '-' ∧ h2 = '-' ∧
        [y1, y2, y3, y4, m1, m2, d1, d2].all (fun c => c.isDigit) then
      let yn := digitListToNat [y1, y2, y3, y4]
      let mn := digitListToNat [m1, m2]
      let dn := digitListToNat [d1, d2]
      if 1 ≤ yn ∧ 1 ≤ mn ∧ mn ≤ 12 ∧ 1 ≤ dn ∧ dn ≤ daysInMonth yn mn then
        some ⟨yn, mn, dn⟩
      else none
    else none
  | _ => none
/-- Validate a `date` field value. -/
def decodeDate : Json → Option PyDate
  | .str s => parseIsoDate s
  | _ => none
/-- Validate a `Player` submodel. -/
def decodePlayer (j : Json) : Option Player := do
  let nameJ ← j.get ("name")
  let name ← decodeStr nameJ
  pure ⟨name⟩
/-- Validate a `Complexity` literal. -/
def decodeComplexity (j : Json) : Option Complexity :=
  match j with
  | .str s =>
    if s = "Very High" then some .veryHigh
    else if s = "High" then some .high
    else if s = "Moderate" then some .moderate
    else if s = "Low" then some .low
    else none
  | _ => none
/-- Validate a `Spirit` submodel (`aspect` defaults to `None`). -/
def decodeSpirit (j : Json) : Option Spirit := do
  let name ← decodeStr (← j.get ("name"))
  let complexity ← decodeComplexity (← j.get ("complexity"))
  let aspect ←
    match j.get ("aspect") with
    | none => pure none
    | some v => decodeOptStr v
  pure ⟨name, complexity, aspect⟩
/-- Validate an `Adversary` submodel. -/
def decodeAdversary (j : Json) : Option Adversary := do
  let name ← decodeStr (← j.get ("name"))
  let level ← decodeInt (← j.get ("level"))
  pure ⟨name, level⟩
/-- Validate a `PlayerSpirit` submodel. -/
def decodePlayerSpirit (j : Json) : Option PlayerSpirit := do
  let player ← decodePlayer (← j.get ("player"))
  let spirit ← decodeSpirit (← j.get ("spirit"))
  pure ⟨player, spirit⟩
/-- Validate the `players_played` list. -/
def decodeSeats : Json → Option (List PlayerSpirit)
  | .arr elems => elems.mapM decodePlayerSpirit
  | _ => none
/-- pydantic `Game.model_validate(data)`: a dict whose required fields
(`adversary`, `players_played`, `won`) are present and valid; `date_played`
defaults to `date.today()` (passed in as `today`), `desync` and `notes`
default to `None`; extra keys are ignored; no cross-field invariant is
checked — in particular `won` and `desync` may both be set. -/
def gameFromJson (today : PyDate) (j : Json) : Option Game :=
  match j with
  | .obj _ => do
    let dp ←
      match j.get ("date_played") with
      | none => pure today
      | some v => decodeDate v
    let adv ← decodeAdversary (← j.get ("adversary"))
    let seats ← decodeSeats (← j.get ("players_played"))
    let w ← decodeOptBool (← j.get ("won"))
    let dsy ←
      match j.get ("desync") with
      | none => pure none
      | some v => decodeOptBool v
    let nts ←
      match j.get ("notes") with
      | none => pure none
      | some v => decodeOptStr v
    pure ⟨dp, adv, seats, w, dsy, nts⟩
  | _ => none
/-- The outcome of the storage access sequence inside `list_games`:
`get_fs()` returning `None`, `fs.ls` raising `FileNotFoundError` (root
missing), `fs.ls` raising anything else, `fs.cat` raising, or the map of
blob path to parsed contents (`none` for bytes that are not a `Game`
document at all). -/
inductive FsOutcome where
  | noFs
  | rootMissing
  | listFault
  | readFault
  | ok (blobs : List (String × Option Json))
/-- game_history.py `list_games`: empty on every storage fault; otherwise
validate each blob, skip the ones that fail, and sort the survivors by
`date_played` descending (Python's stable `sorted` with `reverse=True`). -/
def list_games (today : PyDate) : FsOutcome → List Game
  | .noFs => []
  | .rootMissing => []
  | .listFault => []
  | .readFault => []
  | .ok blobs =>
    let games := blobs.filterMap (fun pj => pj.2.bind (gameFromJson today))
    games.mergeSort (fun a b => b.date_played.leB a.date_played)
/-- Python iteration over a parsed JSON document (`for x in data:`): lists
yield elements, dicts yield their keys, strings yield their one-character
substrings; `None`, booleans and numbers are not iterable (`TypeError`). -/
def pyIter : Json → Option (List Json)
  | .arr elems => some elems
  | .obj fields => some (fields.map (fun kv => Json.str kv.1))
  | .str s => some (s.data.map (fun c => Json.str (String.singleton c)))
  | _ => none
/-- One iteration of the `import_games` loop: validate the element and try
to save it; a validation failure or a failed save increments `failed`, a
successful save increments `imported`. -/
def importStep (today : PyDate) (acc : Option Store × Nat × Nat) (e : Json) :
    Option Store × Nat × Nat :=
  match gameFromJson today e with
  | some g =>
    let r := record_game acc.1 g
    if r.2 then (r.1, acc.2.1 + 1, acc.2.2) else (r.1, acc.2.1, acc.2.2 + 1)
  | none => (acc.1, acc.2.1, acc.2.2 + 1)
/-- game_history.py `import_games`.  The input is the `json.loads` outcome
(`none` = `JSONDecodeError`, caught: report and return `(0, 0)`).  A
non-iterable top-level document makes the `for` loop raise `TypeError`,
which nothing catches: that uncaught exception is the `none` count result.
Otherwise each element is processed independently by `importStep`. -/
def import_games (today : PyDate) (fs : Option Store) (oj : Option Json) :
    Option Store × Option (Nat × Nat) :=
  match oj with
  | none => (fs, some (0, 0))
  | some j =>
    match pyIter j with
    | none => (fs, none)
    | some elems =>
      let res := elems.foldl (importStep today) (fs, 0, 0)
      (res.1, some (res.2.1, res.2.2))
/-- config.py `WIN_LABEL`. -/
def WIN_LABEL : String := "won"
/-- config.py `DESYNC_LABEL`. -/
def DESYNC_LABEL : String := "desync"
/-- main.py `render_record_game_tab` lines 330-337: the mapping from the
result radio selection (`None` when nothing is chosen) to the `(won,
desync)` pair stored on the `Game` being recorded. -/
def outcomeFromResult (result : Option String) : Option Bool × Option Bool :=
  match result with
  | none => (none, none)
  | some r =>
    if r = DESYNC_LABEL then (none, some true)
    else (some (r = WIN_LABEL), some false)
/-! ## Concrete example records used by witnesses and counterexamples -/

/-- A fixed `date.today()` for the examples. -/
def dToday : PyDate := ⟨2025, 1, 1⟩
/-- An example seat: Bob playing Thunderspeaker. -/
def seatEx : PlayerSpirit := ⟨⟨"Bob"⟩, ⟨"Thunderspeaker", Complexity.moderate, none⟩⟩
/-- England level 3, won. -/
def gameEngland3Won : Game :=
  ⟨⟨2025, 1, 2⟩, ⟨"England", 3⟩, [seatEx], some true, some false, none⟩
/-- England level 3, lost. -/
def gameEngland3Lost : Game :=
  ⟨⟨2025, 1, 3⟩, ⟨"England", 3⟩, [seatEx], some false, some false, none⟩
/-- Sweden level 2, won. -/
def gameSweden2Won : Game :=
  ⟨⟨2025, 1, 4⟩, ⟨"Sweden", 2⟩, [seatEx], some true, some false, none⟩
/-- England level 3, desync (no win/loss outcome). -/
def gameDesync : Game :=
  ⟨⟨2025, 1, 5⟩, ⟨"England", 3⟩, [seatEx], none, some true, none⟩
/-- A JSON document that validates to `gameEngland3Won`. -/
def jsonEngland3Won : Json :=
  Json.obj
    [("date_played", Json.str "2025-01-02"),
     ("adversary", Json.obj [("name", Json.str "England"), ("level", Json.num 3)]),
     ("players_played", Json.arr
       [Json.obj
         [("player", Json.obj [("name", Json.str "Bob")]),
          ("spirit", Json.obj
            [("name", Json.str "Thunderspeaker"),
             ("complexity", Json.str "Moderate")])]]),
     ("won", Json.bool true),
     ("desync", Json.bool false)]
/-- A JSON document that validates to `gameSweden2Won`. -/
def jsonSweden2Won : Json :=
  Json.obj
    [("date_played", Json.str "2025-01-04"),
     ("adversary", Json.obj [("name", Json.str "Sweden"), ("level", Json.num 2)]),
     ("players_played", Json.arr
       [Json.obj
         [("player", Json.obj [("name", Json.str "Bob")]),
          ("spirit", Json.obj
            [("name", Json.str "Thunderspeaker"),
             ("complexity", Json.str "Moderate")])]]),
     ("won", Json.bool true),
     ("desync", Json.bool false)]
/-- A malformed game document: the required `won` field is missing, so
pydantic validation fails. -/
def jsonMalformed : Json :=
  Json.obj
    [("date_played", Json.str "2025-01-03"),
     ("adversary", Json.obj [("name", Json.str "England"), ("level", Json.num 3)]),
     ("players_played", Json.arr [])]
/-- A game document with `won = true` and `desync = true` simultaneously:
no validator rejects it. -/
def jsonBothSet : Json :=
  Json.obj
    [("date_played", Json.str "2025-01-06"),
     ("adversary", Json.obj [("name", Json.str "England"), ("level", Json.num 3)]),
     ("players_played", Json.arr []),
     ("won", Json.bool true),
     ("desync", Json.bool true)]
/-- A filter criteria record whose adversary criterion is the empty
string. -/
def fEmptyAdv : GameFilters :=
  { min_players := 0, max_players := 100, adversary := some "" }
theorem PyDate.leB_refl (a : PyDate) : a.leB a = true := by
  simp [PyDate.leB]
theorem PyDate.leB_total (a b : PyDate) : (a.leB b || b.leB a) = true := by
  simp only [PyDate.leB, Bool.or_eq_true, Bool.and_eq_true, decide_eq_true_eq]
  omega
theorem PyDate.leB_trans (a b c : PyDate) :
    a.leB b = true → b.leB c = true → a.leB c = true := by
  simp only [PyDate.leB, Bool.or_eq_true, Bool.and_eq_true, decide_eq_true_eq]
  omega
theorem filter_games_eq_filter (f : GameFilters) (games : List Game) :
    f.filter_games games = games.filter (matchesAmended f) := by
  unfold GameFilters.filter_games matchesAmended
  cases f.player <;> cases pyTruthyStr f.adversary <;>
    cases f.date_from <;> cases f.date_to <;>
    simp only [List.filter_filter, Bool.true_and, Bool.and_true]
theorem dictGet_dictUpdate_same (f : RawStats → RawStats) (key : String) :
    ∀ st : List (String × RawStats),
      dictGet key (dictUpdate f key st) = (dictGet key st).map f := by
  intro st
  induction st with
  | nil => rfl
  | cons kv rest ih =>
    by_cases h : kv.1 = key <;> simp [dictGet, dictUpdate, h, ih]
theorem dictGet_dictUpdate_ne (f : RawStats → RawStats) (k key : String)
    (h : k ≠ key) :
    ∀ st : List (String × RawStats),
      dictGet key (dictUpdate f k st) = dictGet key st := by
  intro st
  induction st with
  | nil => rfl
  | cons kv rest ih =>
    by_cases h2 : kv.1 = k
    · have h3 : kv.1 ≠ key := fun hx => h (h2.symm.trans hx)
      simp [dictGet, dictUpdate, h2, h3, h, ih]
    · by_cases h3 : kv.1 = key <;>
        simp [dictGet, dictUpdate, h2, h3, h, Ne.symm h, ih]
theorem dictGet_append (key : String) (st1 st2 : List (String × RawStats)) :
    dictGet key (st1 ++ st2) =
      match dictGet key st1 with
      | some r => some r
      | none => dictGet key st2 := by
  induction st1 with
  | nil => rfl
  | cons kv rest ih =>
    by_cases h : kv.1 = key <;> simp [dictGet, h, ih]
theorem statsStep_get_same (st : List (String × RawStats)) (key : String)
    (won : Option Bool) :
    dictGet key (statsStep st key won) =
      some (bumpStats ((dictGet key st).getD ⟨0, 0, 0⟩) won) := by
  unfold statsStep
  cases h : dictGet key st with
  | some r => simp [h, dictGet_dictUpdate_same]
  | none =>
    simp only [h, Option.isSome_none, Bool.false_eq_true, if_false,
      dictGet_dictUpdate_same, dictGet_append, h, Option.getD_none]
    simp [dictGet]
theorem statsStep_get_ne (st : List (String × RawStats)) (k key : String)
    (won : Option Bool) (h : k ≠ key) :
    dictGet key (statsStep st k won) = dictGet key st := by
  unfold statsStep
  cases h2 : dictGet k st with
  | some r => simp [h2, dictGet_dictUpdate_ne _ _ _ h]
  | none =>
    simp only [h2, Option.isSome_none, Bool.false_eq_true, if_false,
      dictGet_dictUpdate_ne _ _ _ h, dictGet_append]
    cases h3 : dictGet key st with
    | some r => simp
    | none => simp [dictGet, h]
theorem statsFoldFrom_get (key : String) :
    ∀ (events : List (String × Option Bool)) (st : List (String × RawStats)),
      dictGet key (statsFoldFrom events st) =
        match dictGet key st with
        | some r => some (specRaw key events r)
        | none =>
          if events.any (fun ev => decide (ev.1 = key)) then
            some (specRaw key events ⟨0, 0, 0⟩)
          else none := by
  intro events
  induction events with
  | nil =>
    intro st
    cases h : dictGet key st <;> simp [statsFoldFrom, specRaw, h]
  | cons ev evs ih =>
    intro st
    have step : statsFoldFrom (ev :: evs) st =
        statsFoldFrom evs (statsStep st ev.1 ev.2) := rfl
    rw [step, ih]
    by_cases hk : ev.1 = key
    · subst hk
      rw [statsStep_get_same]
      cases h : dictGet ev.1 st with
      | some r => simp [h, specRaw]
      | none => simp [h, specRaw, List.any_cons]
    · rw [statsStep_get_ne _ _ _ _ hk]
      cases h : dictGet key st with
      | some r => simp [h, specRaw, hk]
      | none => simp [h, specRaw, List.any_cons, hk]
theorem bumpStats_total (r : RawStats) (won : Option Bool) :
    (bumpStats r won).total = r.total + 1 := by
  rcases won with _ | b
  · rfl
  · cases b <;> rfl
theorem bumpStats_wins (r : RawStats) (won : Option Bool) :
    (bumpStats r won).wins = r.wins + (if won = some true then 1 else 0) := by
  rcases won with _ | b
  · rfl
  · cases b <;> rfl
theorem bumpStats_losses (r : RawStats) (won : Option Bool) :
    (bumpStats r won).losses = r.losses + (if won = some false then 1 else 0) := by
  rcases won with _ | b
  · rfl
  · cases b <;> rfl
theorem specRaw_cons (key : String) (ev : String × Option Bool)
    (evs : List (String × Option Bool)) (r : RawStats) :
    specRaw key (ev :: evs) r =
      specRaw key evs (if ev.1 = key then bumpStats r ev.2 else r) := rfl
theorem specRaw_total (key : String) :
    ∀ (events : List (String × Option Bool)) (r : RawStats),
      (specRaw key events r).total =
        r.total + events.countP (fun ev => decide (ev.1 = key)) := by
  intro events
  induction events with
  | nil => intro r; simp [specRaw]
  | cons ev evs ih =>
    intro r
    rw [specRaw_cons, ih, List.countP_cons]
    by_cases hk : ev.1 = key <;> simp [hk, bumpStats_total] <;> omega
theorem specRaw_wins (key : String) :
    ∀ (events : List (String × Option Bool)) (r : RawStats),
      (specRaw key events r).wins =
        r.wins + events.countP (fun ev => decide (ev.1 = key) && decide (ev.2 = some true)) := by
  intro events
  induction events with
  | nil => intro r; simp [specRaw]
  | cons ev evs ih =>
    intro r
    rw [specRaw_cons, ih, List.countP_cons]
    by_cases hk : ev.1 = key <;> by_cases hw : ev.2 = some true <;>
      simp [hk, hw, bumpStats_wins] <;> omega
theorem specRaw_losses (key : String) :
    ∀ (events : List (String × Option Bool)) (r : RawStats),
      (specRaw key events r).losses =
        r.losses + events.countP (fun ev => decide (ev.1 = key) && decide (ev.2 = some false)) := by
  intro events
  induction events with
  | nil => intro r; simp [specRaw]
  | cons ev evs ih =>
    intro r
    rw [specRaw_cons, ih, List.countP_cons]
    by_cases hk : ev.1 = key <;> by_cases hw : ev.2 = some false <;>
      simp [hk, hw, bumpStats_losses] <;> omega
theorem dictUpdate_keys (f : RawStats → RawStats) (key : String) :
    ∀ st : List (String × RawStats),
      (dictUpdate f key st).map Prod.fst = st.map Prod.fst := by
  intro st
  induction st with
  | nil => rfl
  | cons kv rest ih =>
    by_cases h : kv.1 = key <;> simp [dictUpdate, h, ih]
theorem dictGet_eq_none_iff (key : String) :
    ∀ st : List (String × RawStats),
      dictGet key st = none ↔ key ∉ st.map Prod.fst := by
  intro st
  induction st with
  | nil => simp [dictGet]
  | cons kv rest ih =>
    by_cases h : kv.1 = key
    · simp [dictGet, h]
    · simp only [dictGet, h, if_false, ih, List.map_cons, List.mem_cons]
      constructor
      · intro hx hy
        rcases hy with hy | hy
        · exact h hy.symm
        · exact hx hy
      · intro hx hy
        exact hx (Or.inr hy)
theorem statsStep_keys_nodup (st : List (String × RawStats)) (k : String)
    (won : Option Bool) (h : (st.map Prod.fst).Nodup) :
    ((statsStep st k won).map Prod.fst).Nodup := by
  unfold statsStep
  cases hg : dictGet k st with
  | some r => simpa [hg, dictUpdate_keys] using h
  | none =>
    have hk : k ∉ st.map Prod.fst := (dictGet_eq_none_iff k st).mp hg
    simp [hg, dictUpdate_keys, List.nodup_append, h, hk]
theorem statsFoldFrom_keys_nodup :
    ∀ (events : List (String × Option Bool)) (st : List (String × RawStats)),
      (st.map Prod.fst).Nodup → ((statsFoldFrom events st).map Prod.fst).Nodup := by
  intro events
  induction events with
  | nil => intro st h; exact h
  | cons ev evs ih =>
    intro st h
    exact ih (statsStep st ev.1 ev.2) (statsStep_keys_nodup st ev.1 ev.2 h)
theorem dictGet_of_mem (key : String) (r : RawStats) :
    ∀ st : List (String × RawStats),
      (st.map Prod.fst).Nodup → (key, r) ∈ st → dictGet key st = some r := by
  intro st
  induction st with
  | nil => intro _ h; cases h
  | cons kv rest ih =>
    intro hnd hmem
    rcases List.mem_cons.mp hmem with heq | htail
    · subst heq; simp [dictGet]
    · have hkr : key ∈ rest.map Prod.fst :=
        List.mem_map.mpr ⟨(key, r), htail, rfl⟩
      have hne : kv.1 ≠ key := by
        intro hx
        have : kv.1 ∉ rest.map Prod.fst := (List.nodup_cons.mp (by simpa using hnd)).1
        exact this (hx ▸ hkr)
      simp [dictGet, hne, ih (List.nodup_cons.mp (by simpa using hnd)).2 htail]
theorem adversary_fold_eq_statsFoldFrom (games : List Game) :
    games.foldl (fun st g => statsStep st (advKey g.adversary) g.won) [] =
      statsFoldFrom (advEvents games) [] := by
  unfold statsFoldFrom advEvents
  rw [List.foldl_map]
theorem player_fold_eq_statsFoldFrom :
    ∀ (games : List Game) (st : List (String × RawStats)),
      games.foldl
        (fun st2 g => g.players_played.foldl
          (fun st3 ps => statsStep st3 ps.player.name g.won) st2) st =
        statsFoldFrom (playerEvents games) st := by
  intro games
  induction games with
  | nil => intro st; rfl
  | cons g gs ih =>
    intro st
    have hseat : g.players_played.foldl
        (fun st3 ps => statsStep st3 ps.player.name g.won) st =
        statsFoldFrom (g.players_played.map (fun ps => (ps.player.name, g.won))) st := by
      unfold statsFoldFrom
      rw [List.foldl_map]
    have hflat : playerEvents (g :: gs) =
        g.players_played.map (fun ps => (ps.player.name, g.won)) ++ playerEvents gs := by
      simp [playerEvents, List.flatMap_cons]
    rw [List.foldl_cons, ih, hflat]
    unfold statsFoldFrom
    rw [List.foldl_append]
    rw [hseat]
    rfl
theorem storeWrite_idem (path content : String) :
    ∀ s : Store, storeWrite path content (storeWrite path content s) =
      storeWrite path content s := by
  intro s
  induction s with
  | nil => simp [storeWrite]
  | cons pc rest ih =>
    by_cases h : pc.1 = path <;> simp [storeWrite, h, ih]
theorem importStep_fold_sum (today : PyDate) :
    ∀ (elems : List Json) (acc : Option Store × Nat × Nat),
      (elems.foldl (importStep today) acc).2.1 +
        (elems.foldl (importStep today) acc).2.2 =
        acc.2.1 + acc.2.2 + elems.length := by
  intro elems
  induction elems with
  | nil => intro acc; simp
  | cons e es ih =>
    intro acc
    rw [List.foldl_cons, ih]
    rcases acc with ⟨fs, n, m⟩
    rcases h : gameFromJson today e with _ | g
    · simp [importStep, h]; omega
    · rcases fs with _ | s
      · simp [importStep, h, record_game]; omega
      · simp [importStep, h, record_game]; omega
theorem importStep_fold_some_store (today : PyDate) :
    ∀ (elems : List Json) (s : Store) (n m : Nat),
      ∃ s2 : Store,
        elems.foldl (importStep today) (some s, n, m) =
          (some s2,
           n + elems.countP (fun e => (gameFromJson today e).isSome),
           m + elems.countP (fun e => (gameFromJson today e).isNone)) := by
  intro elems
  induction elems with
  | nil => intro s n m; exact ⟨s, by simp⟩
  | cons e es ih =>
    intro s n m
    rw [List.foldl_cons]
    rcases h : gameFromJson today e with _ | g
    · have step : importStep today (some s, n, m) e = (some s, n, m + 1) := by
        simp [importStep, h]
      rw [step]
      rcases ih s n (m + 1) with ⟨s2, hs2⟩
      refine ⟨s2, ?_⟩
      rw [hs2]
      simp [List.countP_cons, h]
      omega
    · have step : importStep today (some s, n, m) e =
          (some (storeWrite (gamePath g) (model_dump_json g) s), n + 1, m) := by
        simp [importStep, h, record_game, gamePath]
      rw [step]
      rcases ih (storeWrite (gamePath g) (model_dump_json g) s) (n + 1) m with ⟨s2, hs2⟩
      refine ⟨s2, ?_⟩
      rw [hs2]
      simp [List.countP_cons, h]
      omega
theorem import_games_counts (today : PyDate) (s : Store) (elems : List Json) :
    (import_games today (some s) (some (Json.arr elems))).2 =
      some (elems.countP (fun e => (gameFromJson today e).isSome),
            elems.countP (fun e => (gameFromJson today e).isNone)) := by
  rcases importStep_fold_some_store today elems s 0 0 with ⟨s2, hs2⟩
  simp only [import_games, pyIter]
  rw [hs2]
  simp
/-! ## The claims -/

/-- Claim C4: `record_game` serializes the game to canonical JSON, hashes
that encoding with SHA-256, and writes the blob at the hash-named path
(`gamePath`); saving the same game content twice writes the same path, the
second save overwrites rather than duplicating (the store is unchanged),
and from an empty store two saves of the same game leave exactly one
blob. -/
theorem claim_C4_record_game_idempotent (g : Game) (s : Store) :
    record_game (some s) g =
      (some (storeWrite (gamePath g) (model_dump_json g) s), true) ∧
    record_game (record_game (some s) g).1 g = record_game (some s) g ∧
    (record_game (record_game (some []) g).1 g).1 =
      some [(gamePath g, model_dump_json g)] := by
  refine ⟨rfl, ?_, ?_⟩
  · simp [record_game, gamePath, storeWrite_idem]
  · simp [record_game, gamePath, storeWrite]
/-- Claim C8 (counterexample): `import_games` does not return a count pair
for every input string.  The input string `"5"` parses as the JSON number
5; the `for` loop then raises an uncaught `TypeError` (modelled as the
`none` count result), contradicting the claim that no core operation ever
raises to its caller. -/
theorem claim_C8_counterexample :
    import_games dToday (some []) (some (Json.num 5)) = (some [], none) := rfl
/-- Claim C8 (amended): every core operation except `import_games` is total
as embedded; `import_games` returns an explicit `(imported, failed)` pair
for invalid top-level JSON and for every array, object or string top-level
document, and raises an uncaught `TypeError` exactly when the top-level
document is a non-iterable (number, boolean or `None`). -/
theorem claim_C8_amended (today : PyDate) (fs : Option Store) (oj : Option Json) :
    ((import_games today fs oj).2 = none ↔
      ∃ j, oj = some j ∧ pyIter j = none) ∧
    (∀ elems, (import_games today fs (some (Json.arr elems))).2.isSome = true) ∧
    (∀ fields, (import_games today fs (some (Json.obj fields))).2.isSome = true) ∧
    (∀ s, (import_games today fs (some (Json.str s))).2.isSome = true) ∧
    (import_games today fs none).2.isSome = true := by
  refine ⟨?_, ?_, ?_, ?_, ?_⟩
  · constructor
    · intro h
      rcases oj with _ | j
      · simp [import_games] at h
      · refine ⟨j, rfl, ?_⟩
        rcases hit : pyIter j with _ | elems
        · rfl
        · simp [import_games, hit] at h
    · rintro ⟨j, rfl, hj⟩
      simp [import_games, hj]
  · intro elems; simp [import_games, pyIter]
  · intro fields; simp [import_games, pyIter]
  · intro s; simp [import_games, pyIter]
  · simp [import_games]
/-- Claim C9 (counterexample): the outcome invariant is not enforced at
persistence time.  `jsonBothSet` has `won = true` and `desync = true`
simultaneously; `Game.model_validate` accepts it and `import_games`
persists it (one game imported, none failed). -/
theorem claim_C9_counterexample :
    (gameFromJson dToday jsonBothSet).map Game.won = some (some true) ∧
    (gameFromJson dToday jsonBothSet).map Game.desync = some (some true) ∧
    (import_games dToday (some []) (some (Json.arr [jsonBothSet]))).2 =
      some (1, 0) := by
  refine ⟨rfl, rfl, ?_⟩
  rw [import_games_counts]
  decide
/-- Claim C9 (amended): the recording flow of the UI does preserve the
outcome invariant — `outcomeFromResult` never produces a boolean `won`
together with `desync = true`, and with a result actually selected (the
save gate requires one) the pair is either the desync encoding
`(None, True)` or a definite outcome `(bool, False)` — but neither the
`Game` model nor `import_games` validates the invariant, so games imported
from JSON can violate it. -/
theorem claim_C9_amended (result : Option String) :
    (¬ ((outcomeFromResult result).1.isSome = true ∧
        (outcomeFromResult result).2 = some true)) ∧
    (result.isSome = true →
      outcomeFromResult result = (none, some true) ∨
      ∃ bb : Bool, outcomeFromResult result = (some bb, some false)) := by
  rcases result with _ | r
  · exact ⟨by simp [outcomeFromResult], by simp⟩
  · by_cases h : r = DESYNC_LABEL
    · refine ⟨?_, fun _ => Or.inl ?_⟩ <;> simp [outcomeFromResult, h]
    · refine ⟨?_, fun _ => Or.inr ⟨decide (r = WIN_LABEL), ?_⟩⟩ <;>
        simp [outcomeFromResult, h]
/-- Claim C9 (amended) witness: with the desync radio option selected, the
recorded pair is exactly `(None, True)`. -/
theorem claim_C9_amended_witness :
    outcomeFromResult (some DESYNC_LABEL) = (none, some true) ∨
    ∃ bb : Bool, outcomeFromResult (some DESYNC_LABEL) = (some bb, some false) :=
  (claim_C9_amended (some DESYNC_LABEL)).2 (by decide)
theorem zip_map_self (f : String → ℚ) :
    ∀ l : List String, l.zip (l.map f) = l.map (fun x => (x, f x)) := by
  intro l
  induction l with
  | nil => rfl
  | cons y ys ih => simp [ih]
theorem filter_pairs_not_mem (f : String → ℚ) (x : String) :
    ∀ l : List String, x ∉ l →
      (l.map (fun y => (y, f y))).filter (fun p => decide (p.1 = x)) = [] := by
  intro l
  induction l with
  | nil => intro _; rfl
  | cons y ys ih =>
    intro hx
    have hyx : ¬ y = x := fun hc => hx (hc ▸ List.mem_cons_self y ys)
    have hxys : x ∉ ys := fun hc => hx (List.mem_cons_of_mem y hc)
    simp [hyx, ih hxys]
theorem filter_pairs_nodup_mem (f : String → ℚ) (x : String) :
    ∀ l : List String, l.Nodup → x ∈ l →
      ((l.map (fun y => (y, f y))).filter (fun p => decide (p.1 = x))).map Prod.snd =
        [f x] := by
  intro l
  induction l with
  | nil => intro _ h; cases h
  | cons y ys ih =>
    intro hnd hx
    rcases List.mem_cons.mp hx with rfl | hxs
    · have hnin : x ∉ ys := (List.nodup_cons.mp hnd).1
      simp [filter_pairs_not_mem f x ys hnin]
    · have hyx : ¬ y = x := by
        intro hc
        exact (List.nodup_cons.mp hnd).1 (hc ▸ hxs)
      simp only [List.map_cons, List.filter_cons]
      rw [if_neg (by simpa using hyx)]
      exact ih (List.nodup_cons.mp hnd).2 hxs
theorem drawProb_map_eq (f : String → ℚ) (l : List String) (x : String)
    (hnd : l.Nodup) (hx : x ∈ l) :
    drawProb l (l.map f) x = f x / (l.map f).sum := by
  unfold drawProb
  rw [zip_map_self, filter_pairs_nodup_mem f x l hnd hx]
  simp
theorem counterGetD_eq_max (aal : List String) (a : String) :
    counterGetD aal a 1 = max (countName aal a) 1 := by
  unfold counterGetD
  by_cases h : countName aal a = 0 <;> simp [h] <;> omega
/-- Claim C3: `weighted_random_adversary` considers only games whose
adversary is at the given level (restricting the history to that level
changes nothing); with no such game it falls back to a uniform draw over
`ADVERSARY_NAMES` (in particular the empty history cannot crash — it
produces the uniform draw); otherwise it draws from `ADVERSARY_NAMES`
weighted by `max(max_count / max(n_c, 1) - 1, 0.1)` — the source's
`counter.get(c, 1)` equals `max(n_c, 1)` — and every floored weight is at
least `0.1 > 0`, so every candidate keeps nonzero selection probability. -/
theorem claim_C3_weighted_randomizer (level : Int) (games : List Game) :
    weighted_random_adversary level games =
      weighted_random_adversary level
        (games.filter (fun g => decide (g.adversary.level = level))) ∧
    (adversary_at_level level games = [] →
      weighted_random_adversary level games =
        AdvDraw.uniform ADVERSARY_NAMES level) ∧
    weighted_random_adversary level [] = AdvDraw.uniform ADVERSARY_NAMES level ∧
    (adversary_at_level level games ≠ [] →
      weighted_random_adversary level games =
        AdvDraw.weighted ADVERSARY_NAMES
          (ADVERSARY_NAMES.map (fun a =>
            max ((maxCount (adversary_at_level level games) : ℚ) /
                  (max (countName (adversary_at_level level games) a) 1 : ℚ) - 1)
              (1/10)))
          level) ∧
    (∀ w ∈ ADVERSARY_NAMES.map (adversaryWeight (adversary_at_level level games)),
      1/10 ≤ w) ∧
    (∀ a ∈ ADVERSARY_NAMES,
      drawProb ADVERSARY_NAMES
          (ADVERSARY_NAMES.map (adversaryWeight (adversary_at_level level games))) a =
        adversaryWeight (adversary_at_level level games) a /
          (ADVERSARY_NAMES.map (adversaryWeight (adversary_at_level level games))).sum) := by
  have hfix : adversary_at_level level
      (games.filter (fun g => decide (g.adversary.level = level))) =
      adversary_at_level level games := by
    unfold adversary_at_level
    rw [List.filter_filter]
    simp
  refine ⟨?_, ?_, ?_, ?_, ?_, ?_⟩
  · unfold weighted_random_adversary
    rw [hfix]
  · intro h
    unfold weighted_random_adversary random_adversary
    simp [h]
  · rfl
  · intro h
    have hfun : adversaryWeight (adversary_at_level level games) =
        (fun a => max ((maxCount (adversary_at_level level games) : ℚ) /
            (max (countName (adversary_at_level level games) a) 1 : ℚ) - 1)
          (1/10)) := by
      funext a
      unfold adversaryWeight
      rw [counterGetD_eq_max]
      simp [Nat.cast_max]
    unfold weighted_random_adversary
    rw [if_neg (by simpa [List.isEmpty_iff] using h), hfun]
  · intro w hw
    rcases List.mem_map.mp hw with ⟨a, _, rfl⟩
    exact le_max_right _ _
  · intro a ha
    exact drawProb_map_eq _ _ _ (by decide) ha
/-- Claim C3 witness: at level 3 with a single England game on record, the
history is nonempty, so the weighted branch is taken with the claimed
weight formula; and England's selection probability is its floored weight
over the total weight mass. -/
theorem claim_C3_weighted_randomizer_witness :
    weighted_random_adversary 3 [gameEngland3Won] =
      AdvDraw.weighted ADVERSARY_NAMES
        (ADVERSARY_NAMES.map (fun a =>
          max ((maxCount (adversary_at_level 3 [gameEngland3Won]) : ℚ) /
                (max (countName (adversary_at_level 3 [gameEngland3Won]) a) 1 : ℚ) - 1)
            (1/10)))
        3 ∧
    drawProb ADVERSARY_NAMES
        (ADVERSARY_NAMES.map (adversaryWeight (adversary_at_level 3 [gameEngland3Won])))
        ("England") =
      adversaryWeight (adversary_at_level 3 [gameEngland3Won]) ("England") /
        (ADVERSARY_NAMES.map (adversaryWeight (adversary_at_level 3 [gameEngland3Won]))).sum :=
  ⟨(claim_C3_weighted_randomizer 3 [gameEngland3Won]).2.2.2.1 (by decide),
   (claim_C3_weighted_randomizer 3 [gameEngland3Won]).2.2.2.2.2 ("England") (by decide)⟩
/-- Claim C10: in `weighted_random_adversary`, a candidate never played at
the level gets exactly the same pre-floor weight — hence the same floored
weight `max(max_count - 1, 0.1)` — as a candidate played exactly once,
because the absent candidate's count defaults to 1 in `counter.get(a, 1)`;
consequently the weighted draw assigns the two candidates equal selection
probability. -/
theorem claim_C10_zero_play_equals_one_play (level : Int) (games : List Game)
    (a b : String)
    (ha : countName (adversary_at_level level games) a = 0)
    (hb : countName (adversary_at_level level games) b = 1) :
    adversaryWeight (adversary_at_level level games) a =
      adversaryWeight (adversary_at_level level games) b ∧
    adversaryWeight (adversary_at_level level games) a =
      max ((maxCount (adversary_at_level level games) : ℚ) - 1) (1/10) ∧
    (a ∈ ADVERSARY_NAMES → b ∈ ADVERSARY_NAMES →
      drawProb ADVERSARY_NAMES
          (ADVERSARY_NAMES.map (adversaryWeight (adversary_at_level level games))) a =
        drawProb ADVERSARY_NAMES
          (ADVERSARY_NAMES.map (adversaryWeight (adversary_at_level level games))) b) := by
  have hwa : adversaryWeight (adversary_at_level level games) a =
      max ((maxCount (adversary_at_level level games) : ℚ) - 1) (1/10) := by
    unfold adversaryWeight counterGetD
    simp [ha]
  have hwb : adversaryWeight (adversary_at_level level games) b =
      max ((maxCount (adversary_at_level level games) : ℚ) - 1) (1/10) := by
    unfold adversaryWeight counterGetD
    simp [hb]
  refine ⟨hwa.trans hwb.symm, hwa, ?_⟩
  intro hma hmb
  have hnd : ADVERSARY_NAMES.Nodup := by decide
  rw [drawProb_map_eq _ _ _ hnd hma, drawProb_map_eq _ _ _ hnd hmb,
    hwa.trans hwb.symm]
/-- Claim C10 witness: with one England game at level 3 on record, Sweden
(never played) and England (played once) get equal floored weights. -/
theorem claim_C10_zero_play_equals_one_play_witness :
    adversaryWeight (adversary_at_level 3 [gameEngland3Won]) ("Sweden") =
      adversaryWeight (adversary_at_level 3 [gameEngland3Won]) ("England") :=
  (claim_C10_zero_play_equals_one_play 3 [gameEngland3Won] ("Sweden") ("England")
    (by decide) (by decide)).1
theorem dictGet_mem (key : String) (r : RawStats) :
    ∀ st : List (String × RawStats), dictGet key st = some r → (key, r) ∈ st := by
  intro st
  induction st with
  | nil => intro h; cases h
  | cons kv rest ih =>
    intro h
    by_cases hk : kv.1 = key
    · simp [dictGet, hk] at h
      subst h
      subst hk
      exact List.mem_cons_self _ _
    · simp [dictGet, hk] at h
      exact List.mem_cons_of_mem _ (ih h)
theorem countP_won_le (key : String) :
    ∀ events : List (String × Option Bool),
      events.countP (fun ev => decide (ev.1 = key) && decide (ev.2 = some true)) +
        events.countP (fun ev => decide (ev.1 = key) && decide (ev.2 = some false)) ≤
        events.countP (fun ev => decide (ev.1 = key)) := by
  intro events
  induction events with
  | nil => simp
  | cons ev evs ih =>
    by_cases hk : ev.1 = key <;> rcases hw : ev.2 with _ | b <;> (try cases b) <;>
      simp [List.countP_cons, hk, hw] <;> omega
theorem get_adversary_stats_eq (games : List Game) :
    get_adversary_stats games =
      (statsFoldFrom (advEvents games) []).map (fun kv => (kv.1, addPct kv.2)) := by
  unfold get_adversary_stats
  rw [adversary_fold_eq_statsFoldFrom]
theorem get_player_stats_eq (games : List Game) :
    get_player_stats games =
      (statsFoldFrom (playerEvents games) []).map (fun kv => (kv.1, addPct kv.2)) := by
  unfold get_player_stats
  rw [player_fold_eq_statsFoldFrom]
theorem statsOut_mem_char (events : List (String × Option Bool)) (key : String)
    (e : StatsOut)
    (hmem : (key, e) ∈ (statsFoldFrom events []).map (fun kv => (kv.1, addPct kv.2))) :
    e.wins = events.countP (fun ev => decide (ev.1 = key) && decide (ev.2 = some true)) ∧
    e.losses = events.countP (fun ev => decide (ev.1 = key) && decide (ev.2 = some false)) ∧
    e.total = events.countP (fun ev => decide (ev.1 = key)) ∧
    e.win_pct = pyRound1 (if 0 < e.total then (e.wins : ℚ) / (e.total : ℚ) * 100 else 0) := by
  rcases List.mem_map.mp hmem with ⟨kv, hkv, heq⟩
  have hk1 : kv.1 = key := congrArg Prod.fst heq
  have he : e = addPct kv.2 := (congrArg Prod.snd heq).symm
  have hnd : ((statsFoldFrom events []).map Prod.fst).Nodup :=
    statsFoldFrom_keys_nodup events [] (by simp)
  have hget : dictGet key (statsFoldFrom events []) = some kv.2 :=
    dictGet_of_mem key kv.2 _ hnd (by rw [← hk1]; exact hkv)
  have hspec := statsFoldFrom_get key events []
  rw [hget] at hspec
  have hnone : dictGet key ([] : List (String × RawStats)) = none := rfl
  rw [hnone] at hspec
  by_cases hany : events.any (fun ev => decide (ev.1 = key)) = true
  · rw [if_pos hany] at hspec
    have hkv2 : kv.2 = specRaw key events ⟨0, 0, 0⟩ := by
      injection hspec
    have hw := specRaw_wins key events ⟨0, 0, 0⟩
    have hl := specRaw_losses key events ⟨0, 0, 0⟩
    have ht := specRaw_total key events ⟨0, 0, 0⟩
    rw [← hkv2] at hw hl ht
    simp only [Nat.zero_add] at hw hl ht
    subst he
    exact ⟨hw, hl, ht, rfl⟩
  · rw [if_neg hany] at hspec
    cases hspec
theorem statsOut_exists (events : List (String × Option Bool)) (key : String)
    (hany : events.any (fun ev => decide (ev.1 = key)) = true) :
    ∃ e, (key, e) ∈ (statsFoldFrom events []).map (fun kv => (kv.1, addPct kv.2)) := by
  have hspec := statsFoldFrom_get key events []
  have hnone : dictGet key ([] : List (String × RawStats)) = none := rfl
  rw [hnone, if_pos hany] at hspec
  refine ⟨addPct (specRaw key events ⟨0, 0, 0⟩), ?_⟩
  exact List.mem_map.mpr ⟨(key, specRaw key events ⟨0, 0, 0⟩), dictGet_mem _ _ _ hspec, rfl⟩
/-- Claim C1 (counterexample): the aggregators do not exclude desync/unset
games from `total` or from the win-rate denominator.  A single desync game
(`won = None`) yields the group entry `{wins: 0, losses: 0, total: 1}`, so
`total ≠ wins + losses`; and England with one win plus one desync yields
`{wins: 1, losses: 0, total: 2}`, so the win-rate denominator (`total`) is
2 where the claim demands a denominator of `wins + losses = 1`. -/
theorem claim_C1_counterexample :
    (get_adversary_stats [gameDesync]).map
        (fun kv => (kv.1, kv.2.wins, kv.2.losses, kv.2.total)) =
      [("England (Lvl 3)", 0, 0, 1)] ∧
    ¬ ((0 : Nat) + 0 = 1) ∧
    (get_adversary_stats [gameEngland3Won, gameDesync]).map
        (fun kv => (kv.1, kv.2.wins, kv.2.losses, kv.2.total)) =
      [("England (Lvl 3)", 1, 0, 2)] ∧
    (get_player_stats [gameDesync]).map
        (fun kv => (kv.1, kv.2.wins, kv.2.losses, kv.2.total)) =
      [("Bob", 0, 0, 1)] := by
  refine ⟨by decide, by decide, by decide, by decide⟩
/-- Claim C1 (amended): for every group the aggregators produce, `total`
counts every game (adversary) or seat (player) assigned to the group,
including desync/unset outcomes — a desync game still makes its group
exist — so `wins + losses ≤ total` (with equality only when the group has
no desync/unset games), and `win_rate = round(wins / total * 100, 1)` uses
this all-outcomes `total` as denominator (`total > 0` holds for every
existing group; the `else 0` branch is dead).  Group labels are unique. -/
theorem claim_C1_stats_totals (games : List Game) (key : String) (e : StatsOut) :
    ((key, e) ∈ get_adversary_stats games →
      e.wins = (advEvents games).countP
        (fun ev => decide (ev.1 = key) && decide (ev.2 = some true)) ∧
      e.losses = (advEvents games).countP
        (fun ev => decide (ev.1 = key) && decide (ev.2 = some false)) ∧
      e.total = (advEvents games).countP (fun ev => decide (ev.1 = key)) ∧
      e.wins + e.losses ≤ e.total ∧
      e.win_pct = pyRound1 (if 0 < e.total then (e.wins : ℚ) / (e.total : ℚ) * 100 else 0)) ∧
    ((key, e) ∈ get_player_stats games →
      e.wins = (playerEvents games).countP
        (fun ev => decide (ev.1 = key) && decide (ev.2 = some true)) ∧
      e.losses = (playerEvents games).countP
        (fun ev => decide (ev.1 = key) && decide (ev.2 = some false)) ∧
      e.total = (playerEvents games).countP (fun ev => decide (ev.1 = key)) ∧
      e.wins + e.losses ≤ e.total ∧
      e.win_pct = pyRound1 (if 0 < e.total then (e.wins : ℚ) / (e.total : ℚ) * 100 else 0)) ∧
    ((get_adversary_stats games).map Prod.fst).Nodup ∧
    ((get_player_stats games).map Prod.fst).Nodup ∧
    ((advEvents games).any (fun ev => decide (ev.1 = key)) = true →
      ∃ e2, (key, e2) ∈ get_adversary_stats games) ∧
    ((playerEvents games).any (fun ev => decide (ev.1 = key)) = true →
      ∃ e2, (key, e2) ∈ get_player_stats games) := by
  refine ⟨?_, ?_, ?_, ?_, ?_, ?_⟩
  · intro hmem
    rw [get_adversary_stats_eq] at hmem
    rcases statsOut_mem_char (advEvents games) key e hmem with ⟨hw, hl, ht, hp⟩
    refine ⟨hw, hl, ht, ?_, hp⟩
    rw [hw, hl, ht]
    exact countP_won_le key (advEvents games)
  · intro hmem
    rw [get_player_stats_eq] at hmem
    rcases statsOut_mem_char (playerEvents games) key e hmem with ⟨hw, hl, ht, hp⟩
    refine ⟨hw, hl, ht, ?_, hp⟩
    rw [hw, hl, ht]
    exact countP_won_le key (playerEvents games)
  · rw [get_adversary_stats_eq]
    have := statsFoldFrom_keys_nodup (advEvents games) [] (by simp)
    simpa [List.map_map, Function.comp] using this
  · rw [get_player_stats_eq]
    have := statsFoldFrom_keys_nodup (playerEvents games) [] (by simp)
    simpa [List.map_map, Function.comp] using this
  · intro hany
    rw [get_adversary_stats_eq]
    exact statsOut_exists (advEvents games) key hany
  · intro hany
    rw [get_player_stats_eq]
    exact statsOut_exists (playerEvents games) key hany
/-- Claim C1 witness: in the three-game scenario (England 3 won, England 3
lost, Sweden 2 won), the England group exists, and its entry satisfies the
count characterization and `wins + losses ≤ total`. -/
theorem claim_C1_stats_totals_witness :
    ∃ e2, ("England (Lvl 3)", e2) ∈
      get_adversary_stats [gameEngland3Won, gameEngland3Lost, gameSweden2Won] :=
  (claim_C1_stats_totals [gameEngland3Won, gameEngland3Lost, gameSweden2Won]
    ("England (Lvl 3)") ⟨0, 0, 0, 0⟩).2.2.2.2.1 (by decide)
/-- Claim C2 (counterexample): `filter_games` does not return exactly the
games satisfying every provided constraint.  With the provided criterion
`adversary = ""`, an England game does not satisfy the exact-name-match
constraint, yet the code returns it: Python's `if self.adversary:` treats
the empty string as falsy and skips the filter. -/
theorem claim_C2_counterexample :
    GameFilters.filter_games fEmptyAdv [gameEngland3Won] = [gameEngland3Won] ∧
    [gameEngland3Won].filter (matchesClaimed fEmptyAdv) = [] :=
  ⟨by decide, by decide⟩
/-- Claim C2 (amended): `filter_games` is pure and order-preserving and
returns exactly the games satisfying the conjunction of all provided
constraints (inclusive player-count bounds, player membership among seats,
exact adversary-name match, inclusive date bounds) — except that a
provided adversary criterion equal to the empty string imposes no
constraint, like an absent one (Python falsiness).  An absent criterion
imposes no constraint, an empty input yields an empty output, and
`min_players > max_players` yields an empty output without error; for
every game `g`, filtering `[g]` with `min_players = len(players) + 1`
yields empty and with `min_players = len(players)` yields `[g]`. -/
theorem claim_C2_filter_games (f : GameFilters) (games : List Game) (g : Game) :
    f.filter_games games = games.filter (matchesAmended f) ∧
    f.filter_games [] = [] ∧
    (f.max_players < f.min_players → f.filter_games games = []) ∧
    GameFilters.filter_games
      { min_players := (g.players_played.length : Int) + 1,
        max_players := (g.players_played.length : Int) + 1 } [g] = [] ∧
    GameFilters.filter_games
      { min_players := (g.players_played.length : Int),
        max_players := (g.players_played.length : Int) } [g] = [g] := by
  refine ⟨filter_games_eq_filter f games, ?_, ?_, ?_, ?_⟩
  · rw [filter_games_eq_filter]
    rfl
  · intro hlt
    rw [filter_games_eq_filter]
    apply List.filter_eq_nil_iff.mpr
    intro g2 _
    intro hmatch
    simp only [matchesAmended, Bool.and_eq_true, decide_eq_true_eq] at hmatch
    rcases hmatch with ⟨-, -, -, -, hE, hF⟩
    omega
  · rw [filter_games_eq_filter]
    apply List.filter_eq_nil_iff.mpr
    intro g2 hg2
    rcases List.mem_singleton.mp hg2 with rfl
    intro hmatch
    simp only [matchesAmended, pyTruthyStr, Bool.and_eq_true, decide_eq_true_eq] at hmatch
    rcases hmatch with ⟨-, -, -, -, hE, hF⟩
    omega
  · rw [filter_games_eq_filter]
    have hm : matchesAmended
        { min_players := (g.players_played.length : Int),
          max_players := (g.players_played.length : Int) } g = true := by
      simp [matchesAmended, pyTruthyStr]
    simp [hm]
/-- Claim C2 witness: a bound with `min_players > max_players` filters a
one-game history to the empty list. -/
theorem claim_C2_filter_games_witness :
    GameFilters.filter_games { min_players := 5, max_players := 2 }
      [gameEngland3Won] = [] :=
  (claim_C2_filter_games { min_players := 5, max_players := 2 }
    [gameEngland3Won] gameEngland3Won).2.2.1 (by decide)
theorem gameLe_trans :
    ∀ a b c : Game, b.date_played.leB a.date_played = true →
      c.date_played.leB b.date_played = true →
      c.date_played.leB a.date_played = true :=
  fun a b c hab hbc =>
    PyDate.leB_trans c.date_played b.date_played a.date_played hbc hab
theorem gameLe_total :
    ∀ a b : Game,
      (b.date_played.leB a.date_played || a.date_played.leB b.date_played) = true :=
  fun a b => PyDate.leB_total b.date_played a.date_played
/-- Claim C5: on a successful storage read, `list_games` returns exactly
the successfully parsed games (a permutation of them), sorted descending
by `date_played` (pairwise comparison), with ties between equal dates
broken stably: for every date, the games of that date appear in exactly
their input order. -/
theorem claim_C5_list_games_sorted (today : PyDate)
    (blobs : List (String × Option Json)) (d : PyDate) :
    (list_games today (FsOutcome.ok blobs)).Perm
      (blobs.filterMap (fun pj => pj.2.bind (gameFromJson today))) ∧
    (list_games today (FsOutcome.ok blobs)).Pairwise
      (fun a b => b.date_played.leB a.date_played = true) ∧
    (list_games today (FsOutcome.ok blobs)).filter
        (fun g => decide (g.date_played = d)) =
      (blobs.filterMap (fun pj => pj.2.bind (gameFromJson today))).filter
        (fun g => decide (g.date_played = d)) := by
  have hperm := List.mergeSort_perm
    (blobs.filterMap (fun pj => pj.2.bind (gameFromJson today)))
    (fun a b : Game => b.date_played.leB a.date_played)
  refine ⟨hperm, ?_, ?_⟩
  · have hs := List.sorted_mergeSort gameLe_trans gameLe_total
      (blobs.filterMap (fun pj => pj.2.bind (gameFromJson today)))
    exact hs.imp (fun h => h)
  · set parsed := blobs.filterMap (fun pj => pj.2.bind (gameFromJson today)) with hp
    set P : Game → Bool := fun g => decide (g.date_played = d) with hP
    have hsubl : List.Sublist (parsed.filter P) parsed := List.filter_sublist parsed
    have hpw : (parsed.filter P).Pairwise
        (fun a b : Game => b.date_played.leB a.date_played) := by
      apply List.pairwise_of_forall_mem_list
      intro a ha b hb
      have hda : a.date_played = d := by
        have := (List.mem_filter.mp ha).2
        simpa [hP] using this
      have hdb : b.date_played = d := by
        have := (List.mem_filter.mp hb).2
        simpa [hP] using this
      show b.date_played.leB a.date_played = true
      rw [hda, hdb]
      exact PyDate.leB_refl d
    have hsub2 : List.Sublist (parsed.filter P)
        (parsed.mergeSort (fun a b : Game => b.date_played.leB a.date_played)) :=
      List.sublist_mergeSort gameLe_trans gameLe_total hpw hsubl
    have hsub3 : List.Sublist ((parsed.filter P).filter P)
        ((parsed.mergeSort (fun a b : Game => b.date_played.leB a.date_played)).filter P) :=
      hsub2.filter P
    have hself : (parsed.filter P).filter P = parsed.filter P :=
      List.filter_eq_self.mpr (fun a ha => (List.mem_filter.mp ha).2)
    rw [hself] at hsub3
    have hpermf : ((parsed.mergeSort
        (fun a b : Game => b.date_played.leB a.date_played)).filter P).Perm
        (parsed.filter P) := hperm.filter P
    exact (hsub3.eq_of_length hpermf.length_eq.symm).symm
/-- Claim C6: a blob that fails validation is skipped rather than fatal —
every valid sibling blob still appears in the result — and every storage
fault (no filesystem, missing root, listing fault, read fault) yields the
empty list rather than an error. -/
theorem claim_C6_list_games_faults (today : PyDate)
    (blobs : List (String × Option Json)) (path : String) (j : Json) (g : Game) :
    list_games today FsOutcome.noFs = [] ∧
    list_games today FsOutcome.rootMissing = [] ∧
    list_games today FsOutcome.listFault = [] ∧
    list_games today FsOutcome.readFault = [] ∧
    ((path, some j) ∈ blobs → gameFromJson today j = some g →
      g ∈ list_games today (FsOutcome.ok blobs)) := by
  refine ⟨rfl, rfl, rfl, rfl, ?_⟩
  intro hmem hdec
  have hparsed : g ∈ blobs.filterMap (fun pj => pj.2.bind (gameFromJson today)) :=
    List.mem_filterMap.mpr ⟨(path, some j), hmem, by simp [hdec]⟩
  exact List.mem_mergeSort.mpr hparsed
/-- Claim C6 witness: loading a store holding one unparseable blob and one
valid blob still yields the valid game. -/
theorem claim_C6_list_games_faults_witness :
    gameEngland3Won ∈ list_games dToday
      (FsOutcome.ok [("bad.json", none), ("good.json", some jsonEngland3Won)]) :=
  (claim_C6_list_games_faults dToday
    [("bad.json", none), ("good.json", some jsonEngland3Won)]
    ("good.json") jsonEngland3Won gameEngland3Won).2.2.2.2
    (List.mem_cons_of_mem _ (List.mem_cons_self _ _)) (by decide)
/-- Claim C7: for a top-level JSON array, `import_games` validates and
saves each element independently and returns `(imported, failed)` with
`imported + failed` equal to the number of elements; for invalid top-level
JSON it reports the error and returns `(0, 0)`; with storage available the
counts are exactly the numbers of elements that validate and that fail,
so a batch of 3 records with exactly 1 malformed returns `(2, 1)`. -/
theorem claim_C7_import_counts (today : PyDate) (fs : Option Store) (s : Store)
    (elems : List Json) :
    ((import_games today fs (some (Json.arr elems))).2).map (fun p => p.1 + p.2) =
      some elems.length ∧
    import_games today fs none = (fs, some (0, 0)) ∧
    (import_games today (some s) (some (Json.arr elems))).2 =
      some (elems.countP (fun e => (gameFromJson today e).isSome),
            elems.countP (fun e => (gameFromJson today e).isNone)) ∧
    (import_games dToday (some s)
        (some (Json.arr [jsonEngland3Won, jsonMalformed, jsonSweden2Won]))).2 =
      some (2, 1) := by
  refine ⟨?_, rfl, import_games_counts today s elems, ?_⟩
  · have hsum := importStep_fold_sum today elems (fs, 0, 0)
    simp only [import_games, pyIter]
    simp at hsum ⊢
    omega
  · rw [import_games_counts]
    decide
